import Mathlib

/-!
# Server side of the SCRAM conversation (`server_conv.go`)

A shallow embedding of `ServerConversation` and its methods `Step`, `Done`,
`Username`, `AuthID`, `firstMsg` and `finalMsg`, followed by theorems about the
two protocol rounds.

Modelling conventions.

* A Go `string` and a Go `[]byte` are both finite byte sequences, so both are
  `List UInt8` and the conversions `[]byte(s)` and `string(b)` are the identity.
* A Go `error` is `Option GoError`; `none` is `nil`.
* A method with a pointer receiver takes the conversation and returns the
  updated one.  The two callbacks stored in the conversation (`nonceGen`,
  `credentialCB`) may have effects of their own: they act on an abstract world
  state `W` that is threaded through every call.
* Every call that leaves `server_conv.go` for a parser or a callback is
  appended to a call log, so that "is (not) invoked" can be stated.
* Package functions that live outside `server_conv.go` (`parseClientFirst`,
  `parseClientFinal`, `xorBytes`) are parameters, collected in `Helpers`.
-/

namespace Scram

/-! ## Data model -/

/-- A Go `string` (or `[]byte`) value: a finite sequence of bytes. -/
abbrev GoString := List UInt8

/-- The bytes of a string literal of the Go source. -/
def str (s : String) : GoString := s.toUTF8.data.toList

/-- A non-nil Go `error` value, identified by its message. -/
structure GoError where
  msg : GoString
deriving DecidableEq

/-- The enumeration `serverState` (`serverFirst`, `serverFinal`, `serverDone`). -/
inductive serverState where
  | serverFirst
  | serverFinal
  | serverDone
deriving DecidableEq

/-- Modelled from the spec: the type `StoredCredentials` is declared outside
`server_conv.go`; the fields are the four that `firstMsg` and `finalMsg` read
(`Salt`, `Iters`, `StoredKey`, `ServerKey`), the spec's salt, iterations,
storedKey and serverKey. -/
structure StoredCredentials where
  Salt : GoString
  Iters : Int
  StoredKey : GoString
  ServerKey : GoString
deriving DecidableEq

/-- Modelled from the spec: the parsed client-first message (declared outside
`server_conv.go`), with the five fields `firstMsg` reads. -/
structure c1Msg where
  gs2Header : GoString
  username : GoString
  authID : GoString
  nonce : GoString
  c1b : GoString
deriving DecidableEq

/-- Modelled from the spec: the parsed client-final message (declared outside
`server_conv.go`), with the four fields `finalMsg` reads. -/
structure c2Msg where
  cbind : GoString
  nonce : GoString
  proof : GoString
  c2wop : GoString
deriving DecidableEq

/-- Modelled from the spec: a `HashGeneratorFcn` is used by `server_conv.go`
only as the first argument of `computeHMAC` and `computeHash`, so it is
represented by the two functions it determines: the spec's deterministic
`KeyedHash(key, message)` and `Hash(bytes)`. -/
structure HashGeneratorFcn where
  keyedHash : GoString → GoString → GoString
  hash : GoString → GoString

/-- Modelled from the spec: `computeHMAC(hg, key, data)` is the spec's
`KeyedHash(key, message)` of the configured hash family. -/
def computeHMAC (hg : HashGeneratorFcn) (key data : GoString) : GoString :=
  hg.keyedHash key data

/-- Modelled from the spec: `computeHash(hg, b)` is the spec's `Hash(bytes)` of
the configured hash family. -/
def computeHash (hg : HashGeneratorFcn) (b : GoString) : GoString :=
  hg.hash b

/-- Package functions of the repository that are defined outside
`server_conv.go`; the conversation code is verified for every choice of them. -/
structure Helpers where
  parseClientFirst : GoString → Except GoError c1Msg
  parseClientFinal : GoString → Except GoError c2Msg
  xorBytes : GoString → GoString → GoString

/-- A call made by the conversation to a parser or to one of its callbacks. -/
inductive Call where
  | parseClientFirst (c1 : GoString)
  | credentialCB (username : GoString)
  | nonceGen
  | parseClientFinal (c2 : GoString)
deriving DecidableEq

/-- What lies outside the conversation object: the state the callbacks act on
and the log of calls made so far. -/
structure Ctx (W : Type) where
  world : W
  calls : List Call

/-- The struct `ServerConversation`. -/
structure ServerConversation (W : Type) where
  nonceGen : W → GoString × W
  hashGen : HashGeneratorFcn
  credentialCB : GoString → W → (StoredCredentials × Option GoError) × W
  state : serverState
  credential : StoredCredentials
  gs2Header : GoString
  username : GoString
  authID : GoString
  nonce : GoString
  c1b : GoString
  s1 : GoString

/-- The outcome of a method call: the returned pair `(response, err)`, the
conversation after the call and the outside context after the call. -/
structure Ret (W : Type) where
  response : GoString
  err : Option GoError
  sc : ServerConversation W
  cx : Ctx W

/-! ## Standard-library functions used by the source -/

/-- The 64 characters of the standard base64 alphabet. -/
def b64Alphabet : GoString :=
  str "ABCDEFGHIJKLMNOPQRSTUVWXYZabcdefghijklmnopqrstuvwxyz0123456789+/"

/-- The base64 character of a 6-bit value. -/
def b64Char (n : Nat) : UInt8 := b64Alphabet.getD (n % 64) 0

/-- The function `base64.StdEncoding.EncodeToString`: standard alphabet, padded
with `=`. -/
def base64Encode : GoString → GoString
  | [] => []
  | [a] =>
    let n := a.toNat * 65536
    [b64Char (n / 262144), b64Char (n / 4096), 61, 61]
  | [a, b] =>
    let n := a.toNat * 65536 + b.toNat * 256
    [b64Char (n / 262144), b64Char (n / 4096), b64Char (n / 64), 61]
  | a :: b :: c :: rest =>
    let n := a.toNat * 65536 + b.toNat * 256 + c.toNat
    b64Char (n / 262144) :: b64Char (n / 4096) :: b64Char (n / 64) :: b64Char n ::
      base64Encode rest

/-- The verb `%d` of `fmt.Sprintf` on an integer: decimal digits, with a
leading minus sign for a negative value. -/
def fmtInt (i : Int) : GoString :=
  let digits : GoString := (Nat.toDigits 10 i.natAbs).map (fun c => c.toNat.toUInt8)
  if i < 0 then 45 :: digits else digits

/-- The function `hmac.Equal`: true exactly when the two byte slices have the
same length and the same contents. -/
def hmacEqual (a b : GoString) : Bool := decide (a = b)

/-! ## The methods of `ServerConversation` -/

variable {W : Type}

/-- The method `firstMsg`. -/
def firstMsg (P : Helpers) (sc : ServerConversation W) (c1 : GoString) (cx : Ctx W) : Ret W :=
  let cx1 : Ctx W := { cx with calls := cx.calls ++ [Call.parseClientFirst c1] }
  match P.parseClientFirst c1 with
  | .error err => { response := [], err := some err, sc := sc, cx := cx1 }
  | .ok msg =>
    let sc1 : ServerConversation W :=
      { sc with gs2Header := msg.gs2Header, username := msg.username, authID := msg.authID }
    let looked := sc1.credentialCB msg.username cx1.world
    let cx2 : Ctx W := { world := looked.2, calls := cx1.calls ++ [Call.credentialCB msg.username] }
    let sc2 : ServerConversation W := { sc1 with credential := looked.1.1 }
    match looked.1.2 with
    | some err => { response := [], err := some err, sc := sc2, cx := cx2 }
    | none =>
      let generated := sc2.nonceGen cx2.world
      let cx3 : Ctx W := { world := generated.2, calls := cx2.calls ++ [Call.nonceGen] }
      let nonce := msg.nonce ++ generated.1
      let s1 := str "r=" ++ nonce ++ str ",s=" ++ base64Encode sc2.credential.Salt
        ++ str ",i=" ++ fmtInt sc2.credential.Iters
      let sc3 : ServerConversation W := { sc2 with nonce := nonce, c1b := msg.c1b, s1 := s1 }
      { response := sc3.s1, err := none, sc := sc3, cx := cx3 }

/-- The method `finalMsg`. -/
def finalMsg (P : Helpers) (sc : ServerConversation W) (c2 : GoString) (cx : Ctx W) : Ret W :=
  let cx1 : Ctx W := { cx with calls := cx.calls ++ [Call.parseClientFinal c2] }
  match P.parseClientFinal c2 with
  | .error err => { response := [], err := some err, sc := sc, cx := cx1 }
  | .ok msg =>
    if msg.cbind ≠ sc.gs2Header then
      { response := str "e=channel-bindings-dont-match",
        err := some ⟨str "channel binding received \x27" ++ msg.cbind
          ++ str "\x27 doesn\x27t match expected \x27" ++ sc.gs2Header ++ str "\x27"⟩,
        sc := sc, cx := cx1 }
    else if msg.nonce ≠ sc.nonce then
      { response := str "e=other-error",
        err := some ⟨str "nonce received did not match nonce sent"⟩,
        sc := sc, cx := cx1 }
    else
      let authMsg := sc.c1b ++ str "," ++ sc.s1 ++ str "," ++ msg.c2wop
      let clientSignature := computeHMAC sc.hashGen sc.credential.StoredKey authMsg
      let clientKey := P.xorBytes msg.proof clientSignature
      let storedKey := computeHash sc.hashGen clientKey
      if !hmacEqual storedKey sc.credential.StoredKey then
        { response := str "e=invalid-proof",
          err := some ⟨str "challenge proof invalid"⟩,
          sc := sc, cx := cx1 }
      else
        let serverSignature := computeHMAC sc.hashGen sc.credential.ServerKey authMsg
        { response := str "v=" ++ base64Encode serverSignature, err := none, sc := sc, cx := cx1 }

/-- The method `Step`. -/
def Step (P : Helpers) (sc : ServerConversation W) (challenge : GoString) (cx : Ctx W) : Ret W :=
  match sc.state with
  | .serverFirst => firstMsg P { sc with state := .serverFinal } challenge cx
  | .serverFinal => finalMsg P { sc with state := .serverDone } challenge cx
  | .serverDone =>
    { response := [], err := some ⟨str "Conversation already completed"⟩, sc := sc, cx := cx }

/-- The method `Done`. -/
def Done (sc : ServerConversation W) : Bool := decide (sc.state = .serverDone)

/-- The method `Username`. -/
def Username (sc : ServerConversation W) : GoString := sc.username

/-- The method `AuthID`. -/
def AuthID (sc : ServerConversation W) : GoString := sc.authID

/-! ## Auxiliary definitions used in the statements -/

/-- The AuthMessage of a conversation: `c1b + "," + s1 + "," + c2wop`. -/
def AuthMessage (c1b s1 c2wop : GoString) : GoString :=
  c1b ++ str "," ++ s1 ++ str "," ++ c2wop

/-- Modelled from the spec: the bytewise XOR of two byte strings of equal
length, which is what the spec requires of `xorBytes`. -/
def bytewiseXor (a b : GoString) : GoString := List.zipWith (fun x y => x ^^^ y) a b

/-- The contract of the package function `xorBytes`: on byte strings of equal
length it is the bytewise XOR.  Nothing is assumed for unequal lengths. -/
def XorContract (P : Helpers) : Prop :=
  ∀ a b : GoString, a.length = b.length → P.xorBytes a b = bytewiseXor a b

/-- The conversation and context after feeding the messages `msgs` to `Step`
one after the other. -/
def runSteps (P : Helpers) (sc : ServerConversation W) (cx : Ctx W) :
    List GoString → ServerConversation W × Ctx W
  | [] => (sc, cx)
  | c :: rest => runSteps P (Step P sc c cx).sc (Step P sc c cx).cx rest

/-! ## A small concrete deployment

A deterministic stand-in for every pluggable part, used to evaluate the
definitions on concrete conversations: user `alice`, salt `S`, 4096
iterations, client nonce `CN`, server nonce `SN`. -/

/-- A keyed hash with a two-byte output: the lengths of key and message. -/
def toyKeyedHash (key data : GoString) : GoString :=
  [key.length.toUInt8, data.length.toUInt8]

/-- A collision-free hash family: `Hash b` is `b` behind the byte 90. -/
def toyHashGen : HashGeneratorFcn :=
  { keyedHash := toyKeyedHash, hash := fun b => 90 :: b }

/-- A hash family with collisions: `Hash b` is the first byte of `b`. -/
def weakHashGen : HashGeneratorFcn :=
  { keyedHash := toyKeyedHash, hash := fun b => b.take 1 }

/-- A table-driven parser for two client-first messages. -/
def toyParseClientFirst (c1 : GoString) : Except GoError c1Msg :=
  if c1 = str "n,,n=alice,r=CN" then
    .ok { gs2Header := str "n,,", username := str "alice", authID := [],
          nonce := str "CN", c1b := str "n=alice,r=CN" }
  else if c1 = str "n,,n=bob,r=CN" then
    .ok { gs2Header := str "n,,", username := str "bob", authID := [],
          nonce := str "CN", c1b := str "n=bob,r=CN" }
  else .error ⟨str "invalid client-first message"⟩

/-- A table-driven parser for a handful of client-final messages. -/
def toyParseClientFinal (c2 : GoString) : Except GoError c2Msg :=
  if c2 = str "c=biws,r=CNSN,p=Ai0=" then
    .ok { cbind := str "n,,", nonce := str "CNSN", proof := [2, 45], c2wop := str "c=biws,r=CNSN" }
  else if c2 = str "c=biws,r=CNSN,p=Aiw=" then
    .ok { cbind := str "n,,", nonce := str "CNSN", proof := [2, 44], c2wop := str "c=biws,r=CNSN" }
  else if c2 = str "c=biws,r=CNSN,p=AC0=" then
    .ok { cbind := str "n,,", nonce := str "CNSN", proof := [0, 45], c2wop := str "c=biws,r=CNSN" }
  else if c2 = str "c=biws,r=CNSN,p=ACw=" then
    .ok { cbind := str "n,,", nonce := str "CNSN", proof := [0, 44], c2wop := str "c=biws,r=CNSN" }
  else if c2 = str "c=eSws,r=CNSN,p=Ai0=" then
    .ok { cbind := str "y,,", nonce := str "CNSN", proof := [2, 45], c2wop := str "c=eSws,r=CNSN" }
  else if c2 = str "c=biws,r=CNXX,p=Ai0=" then
    .ok { cbind := str "n,,", nonce := str "CNXX", proof := [2, 45], c2wop := str "c=biws,r=CNXX" }
  else if c2 = str "c=eSws,r=CNXX,p=Ai0=" then
    .ok { cbind := str "y,,", nonce := str "CNXX", proof := [2, 45], c2wop := str "c=eSws,r=CNXX" }
  else .error ⟨str "invalid client-final message"⟩

/-- The helper functions of the concrete deployment. -/
def toyHelpers : Helpers :=
  { parseClientFirst := toyParseClientFirst,
    parseClientFinal := toyParseClientFinal,
    xorBytes := bytewiseXor }

/-- The credential of `alice` under `toyHashGen`: client key `[1, 2]`, hence
stored key `[90, 1, 2]`; server key `[3, 4]`. -/
def aliceCredential : StoredCredentials :=
  { Salt := str "S", Iters := 4096, StoredKey := [90, 1, 2], ServerKey := [3, 4] }

/-- The credential of `alice` under `weakHashGen`: client key `[1, 2]`, hence
stored key `[1]`; server key `[3, 4]`. -/
def aliceWeakCredential : StoredCredentials :=
  { Salt := str "S", Iters := 4096, StoredKey := [1], ServerKey := [3, 4] }

/-- The zero value of `StoredCredentials`. -/
def zeroCredential : StoredCredentials :=
  { Salt := [], Iters := 0, StoredKey := [], ServerKey := [] }

/-- A credential lookup that knows `alice` only; the world counts the calls
to the callbacks. -/
def toyLookup (cred : StoredCredentials) (username : GoString) (w : Nat) :
    (StoredCredentials × Option GoError) × Nat :=
  if username = str "alice" then ((cred, none), w + 1)
  else ((zeroCredential, some ⟨str "unknown user"⟩), w + 1)

/-- A nonce generator that always answers `SN`. -/
def toyNonceGen (w : Nat) : GoString × Nat := (str "SN", w + 1)

/-- A fresh conversation of the concrete deployment, for a given hash family
and credential of `alice`. -/
def toyFresh (hg : HashGeneratorFcn) (cred : StoredCredentials) : ServerConversation Nat :=
  { nonceGen := toyNonceGen, hashGen := hg, credentialCB := toyLookup cred,
    state := .serverFirst, credential := zeroCredential,
    gs2Header := [], username := [], authID := [], nonce := [], c1b := [], s1 := [] }

/-- The conversation of the concrete deployment after a successful round one
with `alice`, written out field by field. -/
def toyAwaitingFinal (hg : HashGeneratorFcn) (cred : StoredCredentials) : ServerConversation Nat :=
  { nonceGen := toyNonceGen, hashGen := hg, credentialCB := toyLookup cred,
    state := .serverFinal, credential := cred,
    gs2Header := str "n,,", username := str "alice", authID := [],
    nonce := str "CNSN", c1b := str "n=alice,r=CN", s1 := str "r=CNSN,s=Uw==,i=4096" }

/-- The outside context before the first call: world `0`, empty call log. -/
def toyCtx : Ctx Nat := { world := 0, calls := [] }

/-- Modelled from the spec: the conversation as it is created (its constructor
lies outside `server_conv.go`): the three configured functions, the initial
state `serverFirst`, and the zero value in every other field, so that the
accessors report empty values before round one. -/
def freshConversation (nonceGen : W → GoString × W) (hashGen : HashGeneratorFcn)
    (credentialCB : GoString → W → (StoredCredentials × Option GoError) × W) :
    ServerConversation W :=
  { nonceGen := nonceGen, hashGen := hashGen, credentialCB := credentialCB,
    state := .serverFirst, credential := zeroCredential,
    gs2Header := [], username := [], authID := [], nonce := [], c1b := [], s1 := [] }

/-- A table-driven parser for one client-final message, whose proof has three
bytes where the keyed hash has two. -/
def oddParseClientFinal (c2 : GoString) : Except GoError c2Msg :=
  if c2 = str "c=biws,r=CNSN,p=AQID" then
    .ok { cbind := str "n,,", nonce := str "CNSN", proof := [1, 2, 3],
          c2wop := str "c=biws,r=CNSN" }
  else .error ⟨str "invalid client-final message"⟩

/-- The helper functions of the concrete deployment with the parser
`oddParseClientFinal` and an arbitrary `xorBytes`. -/
def oddHelpers (xor : GoString → GoString → GoString) : Helpers :=
  { parseClientFirst := toyParseClientFirst,
    parseClientFinal := oddParseClientFinal,
    xorBytes := xor }

/-! ## Auxiliary lemmas -/

/-- The base64 encoder on the test vectors of RFC 4648 and on the byte strings
of the concrete deployment. -/
theorem base64Encode_vectors :
    base64Encode (str "") = str "" ∧ base64Encode (str "f") = str "Zg==" ∧
    base64Encode (str "fo") = str "Zm8=" ∧ base64Encode (str "foo") = str "Zm9v" ∧
    base64Encode (str "foob") = str "Zm9vYg==" ∧ base64Encode (str "fooba") = str "Zm9vYmE=" ∧
    base64Encode (str "foobar") = str "Zm9vYmFy" ∧ base64Encode [255, 254, 253] = str "//79" ∧
    base64Encode (str "n,,") = str "biws" ∧ base64Encode (str "y,,") = str "eSws" ∧
    base64Encode [2, 45] = str "Ai0=" ∧ base64Encode [2, 44] = str "Aiw=" ∧
    base64Encode [0, 45] = str "AC0=" ∧ base64Encode [0, 44] = str "ACw=" := by
  decide

/-- The decimal rendering of `%d` on a few integers. -/
theorem fmtInt_vectors :
    fmtInt 4096 = str "4096" ∧ fmtInt 0 = str "0" ∧ fmtInt (-12) = str "-12" := by
  decide

/-- The hand-written conversation `toyAwaitingFinal` is the conversation that
round one produces from the fresh one, field by field. -/
theorem toyAwaitingFinal_reached :
    (Step toyHelpers (toyFresh toyHashGen aliceCredential) (str "n,,n=alice,r=CN")
      toyCtx).sc = toyAwaitingFinal toyHashGen aliceCredential := by
  rfl

theorem byte_xor_cancel (a b : UInt8) : (a ^^^ b) ^^^ b = a := by
  cases a with | mk a => cases b with | mk b =>
  show UInt8.xor (UInt8.xor _ _) _ = _
  simp only [UInt8.xor]
  congr 1
  rw [BitVec.xor_assoc, BitVec.xor_self, BitVec.xor_zero]

theorem bytewiseXor_length (a b : GoString) (h : a.length = b.length) :
    (bytewiseXor a b).length = b.length := by
  simp [bytewiseXor, h]

theorem bytewiseXor_cancel (a b : GoString) (h : a.length = b.length) :
    bytewiseXor (bytewiseXor a b) b = a := by
  induction a generalizing b with
  | nil => cases b <;> simp [bytewiseXor]
  | cons x xs ih =>
    cases b with
    | nil => simp at h
    | cons y ys =>
      have hl : xs.length = ys.length := by simpa using h
      have := ih ys hl
      simp only [bytewiseXor] at this ⊢
      simp [byte_xor_cancel, this]

theorem Step_of_serverFirst (P : Helpers) (sc : ServerConversation W) (c : GoString) (cx : Ctx W)
    (h : sc.state = .serverFirst) :
    Step P sc c cx = firstMsg P { sc with state := .serverFinal } c cx := by
  simp [Step, h]

theorem Step_of_serverFinal (P : Helpers) (sc : ServerConversation W) (c : GoString) (cx : Ctx W)
    (h : sc.state = .serverFinal) :
    Step P sc c cx = finalMsg P { sc with state := .serverDone } c cx := by
  simp [Step, h]

theorem bytewiseXor_left_injective (a a' b : GoString) (h : a.length = b.length)
    (h' : a'.length = b.length) (heq : bytewiseXor a b = bytewiseXor a' b) : a = a' := by
  rw [← bytewiseXor_cancel a b h, heq, bytewiseXor_cancel a' b h']

theorem set_ne_self (l : GoString) (i : Nat) (b : UInt8) (hi : i < l.length)
    (hb : l[i]? ≠ some b) : l.set i b ≠ l := by
  intro h
  apply hb
  rw [← h]
  simp [hi]

theorem finalMsg_state (P : Helpers) (sc : ServerConversation W) (c : GoString) (cx : Ctx W) :
    (finalMsg P sc c cx).sc = sc := by
  unfold finalMsg
  cases P.parseClientFinal c with
  | error e => rfl
  | ok m =>
    simp only
    split_ifs <;> rfl

theorem firstMsg_state (P : Helpers) (sc : ServerConversation W) (c : GoString) (cx : Ctx W) :
    (firstMsg P sc c cx).sc.state = sc.state := by
  unfold firstMsg
  cases P.parseClientFirst c with
  | error e => rfl
  | ok m =>
    simp only
    split <;> rfl

theorem finalMsg_err_none_iff (P : Helpers) (sc : ServerConversation W) (c2 : GoString)
    (cx : Ctx W) :
    (finalMsg P sc c2 cx).err = none ↔
      ∃ m : c2Msg, P.parseClientFinal c2 = .ok m ∧ m.cbind = sc.gs2Header ∧
        m.nonce = sc.nonce ∧
        computeHash sc.hashGen (P.xorBytes m.proof
          (computeHMAC sc.hashGen sc.credential.StoredKey
            (AuthMessage sc.c1b sc.s1 m.c2wop))) = sc.credential.StoredKey := by
  cases hparse : P.parseClientFinal c2 with
  | error e => simp [finalMsg, hparse]
  | ok m =>
    by_cases hcb : m.cbind = sc.gs2Header
    · by_cases hn : m.nonce = sc.nonce
      · by_cases hk : computeHash sc.hashGen (P.xorBytes m.proof
            (computeHMAC sc.hashGen sc.credential.StoredKey
              (sc.c1b ++ (str "," ++ (sc.s1 ++ (str "," ++ m.c2wop)))))) = sc.credential.StoredKey
        · simp [finalMsg, hparse, hcb, hn, hk, hmacEqual, AuthMessage]
        · simp [finalMsg, hparse, hcb, hn, hk, hmacEqual, AuthMessage]
      · simp [finalMsg, hparse, hcb, hn]
    · simp [finalMsg, hparse, hcb]

theorem Step_state_of_serverFirst (P : Helpers) (sc : ServerConversation W) (c : GoString)
    (cx : Ctx W) (h : sc.state = .serverFirst) :
    (Step P sc c cx).sc.state = .serverFinal := by
  rw [Step_of_serverFirst P sc c cx h, firstMsg_state]

theorem Step_state_of_serverFinal (P : Helpers) (sc : ServerConversation W) (c : GoString)
    (cx : Ctx W) (h : sc.state = .serverFinal) :
    (Step P sc c cx).sc.state = .serverDone := by
  rw [Step_of_serverFinal P sc c cx h, finalMsg_state]

theorem runSteps_completed (P : Helpers) (msgs : List GoString) :
    ∀ (sc : ServerConversation W) (cx : Ctx W), sc.state = .serverDone →
      (runSteps P sc cx msgs).1.state = .serverDone := by
  induction msgs with
  | nil => intro sc cx h; exact h
  | cons c rest ih =>
    intro sc cx h
    have hs : Step P sc c cx =
        { response := [], err := some ⟨str "Conversation already completed"⟩,
          sc := sc, cx := cx } := by
      simp [Step, h]
    simp only [runSteps, hs]
    exact ih sc cx h

/-! ## Round two -/

/-- C1: completeness of round two.  In the awaiting-client-final state, with a
credential whose StoredKey is `Hash(clientKey)`, a client-final message that
parses to the stored gs2Header, the stored nonce and the proof
`clientKey XOR KeyedHash(StoredKey, AuthMessage)`, the client key having the
keyed-hash output length, makes `Step` return a nil error and the response
`v=` followed by the base64 of `KeyedHash(ServerKey, AuthMessage)`; `xorBytes`
is taken to be the bytewise XOR on equal lengths. -/
theorem Step_final_complete (P : Helpers) (sc : ServerConversation W) (c2 : GoString)
    (cx : Ctx W) (m : c2Msg) (clientKey : GoString)
    (hxor : XorContract P)
    (hstate : sc.state = .serverFinal)
    (hstored : sc.credential.StoredKey = computeHash sc.hashGen clientKey)
    (hparse : P.parseClientFinal c2 = .ok m)
    (hcbind : m.cbind = sc.gs2Header)
    (hnonce : m.nonce = sc.nonce)
    (hlen : clientKey.length =
      (computeHMAC sc.hashGen sc.credential.StoredKey
        (AuthMessage sc.c1b sc.s1 m.c2wop)).length)
    (hproof : m.proof = bytewiseXor clientKey
      (computeHMAC sc.hashGen sc.credential.StoredKey (AuthMessage sc.c1b sc.s1 m.c2wop))) :
    (Step P sc c2 cx).err = none ∧
    (Step P sc c2 cx).response = str "v=" ++ base64Encode
      (computeHMAC sc.hashGen sc.credential.ServerKey (AuthMessage sc.c1b sc.s1 m.c2wop)) := by
  have hkey : P.xorBytes m.proof
      (computeHMAC sc.hashGen sc.credential.StoredKey (AuthMessage sc.c1b sc.s1 m.c2wop))
      = clientKey := by
    rw [hxor _ _ (by rw [hproof]; exact bytewiseXor_length _ _ hlen), hproof]
    exact bytewiseXor_cancel _ _ hlen
  simp only [AuthMessage, List.append_assoc] at hkey
  rw [Step_of_serverFinal P sc c2 cx hstate]
  simp [finalMsg, hparse, hcbind, hnonce, hkey, hmacEqual, AuthMessage]
  simp [← hstored]

/-- Witness of C1 on the concrete deployment: `alice` answers with the proof
`[2, 45]` and receives `v=Ai8=`. -/
theorem Step_final_complete_witness :
    (Step toyHelpers (toyAwaitingFinal toyHashGen aliceCredential)
        (str "c=biws,r=CNSN,p=Ai0=") toyCtx).err = none ∧
    (Step toyHelpers (toyAwaitingFinal toyHashGen aliceCredential)
        (str "c=biws,r=CNSN,p=Ai0=") toyCtx).response = str "v=Ai8=" :=
  Step_final_complete toyHelpers (toyAwaitingFinal toyHashGen aliceCredential)
    (str "c=biws,r=CNSN,p=Ai0=") toyCtx
    { cbind := str "n,,", nonce := str "CNSN", proof := [2, 45], c2wop := str "c=biws,r=CNSN" }
    [1, 2] (fun _ _ _ => rfl) rfl (by decide) rfl (by decide) (by decide) (by decide) (by decide)

/-- C2: soundness of round two.  In the awaiting-client-final state `Step`
returns a nil error exactly when the message parses, its channel-binding bytes
equal the stored gs2Header, its nonce equals the stored nonce, and
`Hash(xorBytes(proof, KeyedHash(StoredKey, AuthMessage)))` equals the
credential's StoredKey; in every other case the error is non-nil. -/
theorem Step_final_sound (P : Helpers) (sc : ServerConversation W) (c2 : GoString)
    (cx : Ctx W) (hstate : sc.state = .serverFinal) :
    (Step P sc c2 cx).err = none ↔
      ∃ m : c2Msg, P.parseClientFinal c2 = .ok m ∧ m.cbind = sc.gs2Header ∧
        m.nonce = sc.nonce ∧
        computeHash sc.hashGen (P.xorBytes m.proof
          (computeHMAC sc.hashGen sc.credential.StoredKey
            (AuthMessage sc.c1b sc.s1 m.c2wop))) = sc.credential.StoredKey := by
  rw [Step_of_serverFinal P sc c2 cx hstate]
  exact finalMsg_err_none_iff P { sc with state := .serverDone } c2 cx

/-- Witness of C2 on the concrete deployment, at the message with the altered
proof `[2, 44]`. -/
theorem Step_final_sound_witness :
    (Step toyHelpers (toyAwaitingFinal toyHashGen aliceCredential)
        (str "c=biws,r=CNSN,p=Aiw=") toyCtx).err = none ↔
      ∃ m : c2Msg, toyParseClientFinal (str "c=biws,r=CNSN,p=Aiw=") = .ok m ∧
        m.cbind = str "n,," ∧ m.nonce = str "CNSN" ∧
        90 :: bytewiseXor m.proof
          (toyKeyedHash [90, 1, 2]
            (AuthMessage (str "n=alice,r=CN") (str "r=CNSN,s=Uw==,i=4096") m.c2wop))
          = [90, 1, 2] :=
  Step_final_sound toyHelpers (toyAwaitingFinal toyHashGen aliceCredential)
    (str "c=biws,r=CNSN,p=Aiw=") toyCtx rfl

/-- C3: in the awaiting-client-final state, a parseable client-final message
whose channel-binding bytes differ from the stored gs2Header makes `Step`
return `e=channel-bindings-dont-match` with a non-nil error, whatever its nonce
and proof are. -/
theorem Step_final_cbind_mismatch (P : Helpers) (sc : ServerConversation W) (c2 : GoString)
    (cx : Ctx W) (m : c2Msg)
    (hstate : sc.state = .serverFinal)
    (hparse : P.parseClientFinal c2 = .ok m)
    (hcbind : m.cbind ≠ sc.gs2Header) :
    (Step P sc c2 cx).response = str "e=channel-bindings-dont-match" ∧
    (Step P sc c2 cx).err ≠ none := by
  rw [Step_of_serverFinal P sc c2 cx hstate]
  simp [finalMsg, hparse, hcbind]

/-- Witness of C3 on the concrete deployment: the channel binding `y,,` sent
with the correct nonce and the correct proof. -/
theorem Step_final_cbind_mismatch_witness :
    (Step toyHelpers (toyAwaitingFinal toyHashGen aliceCredential)
        (str "c=eSws,r=CNSN,p=Ai0=") toyCtx).response = str "e=channel-bindings-dont-match" ∧
    (Step toyHelpers (toyAwaitingFinal toyHashGen aliceCredential)
        (str "c=eSws,r=CNSN,p=Ai0=") toyCtx).err ≠ none :=
  Step_final_cbind_mismatch toyHelpers (toyAwaitingFinal toyHashGen aliceCredential)
    (str "c=eSws,r=CNSN,p=Ai0=") toyCtx
    { cbind := str "y,,", nonce := str "CNSN", proof := [2, 45], c2wop := str "c=eSws,r=CNSN" }
    rfl rfl (by decide)

/-- C4, as stated, fails: on the concrete deployment a client-final message
whose nonce `CNXX` differs from the stored `CNSN` and whose channel binding
`y,,` differs from the stored `n,,` is answered
`e=channel-bindings-dont-match`, not `e=other-error`. -/
theorem Step_final_nonce_mismatch_not_always :
    (toyAwaitingFinal toyHashGen aliceCredential).state = .serverFinal ∧
    toyHelpers.parseClientFinal (str "c=eSws,r=CNXX,p=Ai0=") = .ok
      { cbind := str "y,,", nonce := str "CNXX", proof := [2, 45], c2wop := str "c=eSws,r=CNXX" } ∧
    str "CNXX" ≠ (toyAwaitingFinal toyHashGen aliceCredential).nonce ∧
    (Step toyHelpers (toyAwaitingFinal toyHashGen aliceCredential)
        (str "c=eSws,r=CNXX,p=Ai0=") toyCtx).response ≠ str "e=other-error" ∧
    (Step toyHelpers (toyAwaitingFinal toyHashGen aliceCredential)
        (str "c=eSws,r=CNXX,p=Ai0=") toyCtx).response = str "e=channel-bindings-dont-match" :=
  ⟨rfl, rfl, by decide, by decide, by decide⟩

/-- C4, amended: in the awaiting-client-final state, a parseable client-final
message whose channel-binding bytes equal the stored gs2Header and whose nonce
differs from the stored combined nonce makes `Step` return `e=other-error` with
a non-nil error, whatever its proof and c2wop are. -/
theorem Step_final_nonce_mismatch (P : Helpers) (sc : ServerConversation W) (c2 : GoString)
    (cx : Ctx W) (m : c2Msg)
    (hstate : sc.state = .serverFinal)
    (hparse : P.parseClientFinal c2 = .ok m)
    (hcbind : m.cbind = sc.gs2Header)
    (hnonce : m.nonce ≠ sc.nonce) :
    (Step P sc c2 cx).response = str "e=other-error" ∧
    (Step P sc c2 cx).err = some ⟨str "nonce received did not match nonce sent"⟩ := by
  rw [Step_of_serverFinal P sc c2 cx hstate]
  simp [finalMsg, hparse, hcbind, hnonce]

/-- Witness of the amended C4 on the concrete deployment: the nonce `CNXX`
sent with the correct channel binding and the correct proof. -/
theorem Step_final_nonce_mismatch_witness :
    (Step toyHelpers (toyAwaitingFinal toyHashGen aliceCredential)
        (str "c=biws,r=CNXX,p=Ai0=") toyCtx).response = str "e=other-error" ∧
    (Step toyHelpers (toyAwaitingFinal toyHashGen aliceCredential)
        (str "c=biws,r=CNXX,p=Ai0=") toyCtx).err
      = some ⟨str "nonce received did not match nonce sent"⟩ :=
  Step_final_nonce_mismatch toyHelpers (toyAwaitingFinal toyHashGen aliceCredential)
    (str "c=biws,r=CNXX,p=Ai0=") toyCtx
    { cbind := str "n,,", nonce := str "CNXX", proof := [2, 45], c2wop := str "c=biws,r=CNXX" }
    rfl rfl (by decide) (by decide)

/-- C5, as stated, fails: under a hash family with collisions (`Hash b` is the
first byte of `b`) the accepted proof `[0, 45]` of the concrete deployment can
have its second byte changed to `44`, with channel binding, nonce and c2wop
unchanged, and `Step` still returns a nil error and the response `v=Ai8=`. -/
theorem Step_final_altered_proof_accepted :
    (toyAwaitingFinal weakHashGen aliceWeakCredential).state = .serverFinal ∧
    toyHelpers.parseClientFinal (str "c=biws,r=CNSN,p=AC0=") = .ok
      { cbind := str "n,,", nonce := str "CNSN", proof := [0, 45], c2wop := str "c=biws,r=CNSN" } ∧
    toyHelpers.parseClientFinal (str "c=biws,r=CNSN,p=ACw=") = .ok
      { cbind := str "n,,", nonce := str "CNSN", proof := [0, 44], c2wop := str "c=biws,r=CNSN" } ∧
    (Step toyHelpers (toyAwaitingFinal weakHashGen aliceWeakCredential)
        (str "c=biws,r=CNSN,p=AC0=") toyCtx).err = none ∧
    ([0, 44] : GoString) = List.set [0, 45] 1 44 ∧
    (Step toyHelpers (toyAwaitingFinal weakHashGen aliceWeakCredential)
        (str "c=biws,r=CNSN,p=ACw=") toyCtx).err = none ∧
    (Step toyHelpers (toyAwaitingFinal weakHashGen aliceWeakCredential)
        (str "c=biws,r=CNSN,p=ACw=") toyCtx).response = str "v=Ai8=" ∧
    (Step toyHelpers (toyAwaitingFinal weakHashGen aliceWeakCredential)
        (str "c=biws,r=CNSN,p=ACw=") toyCtx).response ≠ str "e=invalid-proof" :=
  ⟨rfl, rfl, rfl, by decide, by decide, by decide, by decide, by decide⟩

/-- C5, amended: if `Step` accepts a client-final message whose proof has the
keyed-hash output length, and at most one byte string of that length hashes to
the credential's StoredKey, then changing any single byte of the proof (channel
binding, nonce and c2wop unchanged) makes `Step` return `e=invalid-proof` with
a non-nil error; `xorBytes` is taken to be the bytewise XOR on equal lengths. -/
theorem Step_final_altered_proof (P : Helpers) (sc : ServerConversation W)
    (c2 c2' : GoString) (cx cx' : Ctx W) (m m' : c2Msg) (i : Nat) (b : UInt8)
    (hxor : XorContract P)
    (hstate : sc.state = .serverFinal)
    (hparse : P.parseClientFinal c2 = .ok m)
    (haccept : (Step P sc c2 cx).err = none)
    (hlen : m.proof.length =
      (computeHMAC sc.hashGen sc.credential.StoredKey
        (AuthMessage sc.c1b sc.s1 m.c2wop)).length)
    (hpre : ∀ k k' : GoString, k.length = m.proof.length → k'.length = m.proof.length →
      computeHash sc.hashGen k = sc.credential.StoredKey →
      computeHash sc.hashGen k' = sc.credential.StoredKey → k = k')
    (hparse' : P.parseClientFinal c2' = .ok m')
    (hcbind : m'.cbind = m.cbind)
    (hnonce : m'.nonce = m.nonce)
    (hc2wop : m'.c2wop = m.c2wop)
    (hi : i < m.proof.length)
    (hb : m.proof[i]? ≠ some b)
    (hproof : m'.proof = m.proof.set i b) :
    (Step P sc c2' cx').response = str "e=invalid-proof" ∧
    (Step P sc c2' cx').err ≠ none := by
  rw [Step_of_serverFinal P sc c2 cx hstate] at haccept
  obtain ⟨m0, hm0, hcb, hn, hk⟩ :=
    (finalMsg_err_none_iff P { sc with state := .serverDone } c2 cx).mp haccept
  simp only at hcb hn hk
  have hmm : m0 = m := by
    rw [hparse] at hm0
    exact (Except.ok.inj hm0).symm
  subst hmm
  have hlen' : m'.proof.length =
      (computeHMAC sc.hashGen sc.credential.StoredKey
        (AuthMessage sc.c1b sc.s1 m0.c2wop)).length := by
    rw [hproof, List.length_set, hlen]
  have hne : bytewiseXor m'.proof
        (computeHMAC sc.hashGen sc.credential.StoredKey (AuthMessage sc.c1b sc.s1 m0.c2wop))
      ≠ bytewiseXor m0.proof
        (computeHMAC sc.hashGen sc.credential.StoredKey (AuthMessage sc.c1b sc.s1 m0.c2wop)) := by
    intro heq
    have := bytewiseXor_left_injective _ _ _ hlen' hlen heq
    rw [hproof] at this
    exact set_ne_self m0.proof i b hi hb this
  have hk' : computeHash sc.hashGen (P.xorBytes m'.proof
        (computeHMAC sc.hashGen sc.credential.StoredKey
          (AuthMessage sc.c1b sc.s1 m'.c2wop))) ≠ sc.credential.StoredKey := by
    rw [hc2wop, hxor _ _ hlen']
    intro heq
    rw [hxor _ _ hlen] at hk
    apply hne
    apply hpre _ _ _ _ heq hk
    · rw [bytewiseXor_length _ _ hlen', hlen]
    · rw [bytewiseXor_length _ _ hlen, hlen]
  simp only [AuthMessage, List.append_assoc] at hk'
  rw [Step_of_serverFinal P sc c2' cx' hstate]
  simp [finalMsg, hparse', hcbind, hcb, hnonce, hn, hk', hmacEqual]

/-- Witness of the amended C5 on the concrete deployment with the
collision-free hash family: the accepted proof `[2, 45]` altered to `[2, 44]`. -/
theorem Step_final_altered_proof_witness :
    (Step toyHelpers (toyAwaitingFinal toyHashGen aliceCredential)
        (str "c=biws,r=CNSN,p=Aiw=") toyCtx).response = str "e=invalid-proof" ∧
    (Step toyHelpers (toyAwaitingFinal toyHashGen aliceCredential)
        (str "c=biws,r=CNSN,p=Aiw=") toyCtx).err ≠ none :=
  Step_final_altered_proof toyHelpers (toyAwaitingFinal toyHashGen aliceCredential)
    (str "c=biws,r=CNSN,p=Ai0=") (str "c=biws,r=CNSN,p=Aiw=") toyCtx toyCtx
    { cbind := str "n,,", nonce := str "CNSN", proof := [2, 45], c2wop := str "c=biws,r=CNSN" }
    { cbind := str "n,,", nonce := str "CNSN", proof := [2, 44], c2wop := str "c=biws,r=CNSN" }
    1 44 (fun _ _ _ => rfl) rfl rfl (by decide) (by decide)
    (fun _ _ _ _ h h' => List.tail_eq_of_cons_eq (h.trans h'.symm)) rfl rfl rfl rfl
    (by decide) (by decide) (by decide)

/-! ## The state machine -/

/-- C6: in the completed state `Step` returns the empty response with the
error "Conversation already completed" and has no effect: the conversation
(state and every other field) and the outside context (world state and call
log, hence no call to the lookup, the nonce generator or a parser) are
returned unchanged. -/
theorem Step_completed (P : Helpers) (sc : ServerConversation W) (challenge : GoString)
    (cx : Ctx W) (hstate : sc.state = .serverDone) :
    Step P sc challenge cx =
      { response := [], err := some ⟨str "Conversation already completed"⟩,
        sc := sc, cx := cx } := by
  simp [Step, hstate]

/-- Witness of C6 on the concrete deployment: a third message after both
rounds. -/
theorem Step_completed_witness :
    Step toyHelpers { toyAwaitingFinal toyHashGen aliceCredential with state := .serverDone }
        (str "c=biws,r=CNSN,p=Ai0=") toyCtx =
      { response := [], err := some ⟨str "Conversation already completed"⟩,
        sc := { toyAwaitingFinal toyHashGen aliceCredential with state := .serverDone },
        cx := toyCtx } :=
  Step_completed toyHelpers _ _ toyCtx rfl

/-- C7: state transitions are unconditional.  For every message, `Step` on a
conversation awaiting client-first leaves it awaiting client-final, and `Step`
on a conversation awaiting client-final leaves it completed, whatever the
round returned. -/
theorem Step_state_advance (P : Helpers) (sc : ServerConversation W) (challenge : GoString)
    (cx : Ctx W) :
    (sc.state = .serverFirst → (Step P sc challenge cx).sc.state = .serverFinal) ∧
    (sc.state = .serverFinal → (Step P sc challenge cx).sc.state = .serverDone) := by
  exact ⟨Step_state_of_serverFirst P sc challenge cx, Step_state_of_serverFinal P sc challenge cx⟩

/-- Witness of C7 on the concrete deployment: an unparseable first message and
a second message with an invalid proof. -/
theorem Step_state_advance_witness :
    (Step toyHelpers (toyFresh toyHashGen aliceCredential) (str "garbage") toyCtx).sc.state
      = .serverFinal ∧
    (Step toyHelpers (toyAwaitingFinal toyHashGen aliceCredential)
        (str "c=biws,r=CNSN,p=Aiw=") toyCtx).sc.state = .serverDone :=
  ⟨(Step_state_advance toyHelpers (toyFresh toyHashGen aliceCredential) (str "garbage")
      toyCtx).1 rfl,
   (Step_state_advance toyHelpers (toyAwaitingFinal toyHashGen aliceCredential)
      (str "c=biws,r=CNSN,p=Aiw=") toyCtx).2 rfl⟩

/-- C8: `Done` reports only that the terminal state was reached.  On a fresh
conversation (one awaiting client-first), after feeding any list of messages to
`Step`, `Done` is true exactly when at least two messages were fed, whatever
the messages are and whatever the calls returned; and there is a run of the
concrete deployment in which `Done` is true although round two failed. -/
theorem Done_after_steps :
    (∀ (V : Type) (P : Helpers) (sc : ServerConversation V) (cx : Ctx V)
        (msgs : List GoString), sc.state = .serverFirst →
        Done (runSteps P sc cx msgs).1 = decide (2 ≤ msgs.length)) ∧
    (∃ c1 c2 : GoString,
      (Step toyHelpers (Step toyHelpers (toyFresh toyHashGen aliceCredential) c1 toyCtx).sc c2
        (Step toyHelpers (toyFresh toyHashGen aliceCredential) c1 toyCtx).cx).err ≠ none ∧
      Done (runSteps toyHelpers (toyFresh toyHashGen aliceCredential) toyCtx [c1, c2]).1
        = true) := by
  constructor
  · intro V P sc cx msgs h
    cases msgs with
    | nil => simp [runSteps, Done, h]
    | cons c1 rest =>
      have h1 := Step_state_of_serverFirst P sc c1 cx h
      cases rest with
      | nil => simp [runSteps, Done, h1]
      | cons c2 rest =>
        have h2 := Step_state_of_serverFinal P (Step P sc c1 cx).sc c2 (Step P sc c1 cx).cx h1
        have h3 := runSteps_completed P rest _
          (Step P (Step P sc c1 cx).sc c2 (Step P sc c1 cx).cx).cx h2
        simp [runSteps, Done, h3]
  · exact ⟨str "n,,n=alice,r=CN", str "c=biws,r=CNSN,p=Aiw=", by decide, by decide⟩

/-- Witness of C8 on the concrete deployment: after a successful round one and
a round two with an invalid proof, `Done` is true. -/
theorem Done_after_steps_witness :
    Done (runSteps toyHelpers (toyFresh toyHashGen aliceCredential) toyCtx
      [str "n,,n=alice,r=CN", str "c=biws,r=CNSN,p=Aiw="]).1 = true :=
  Done_after_steps.1 Nat toyHelpers (toyFresh toyHashGen aliceCredential) toyCtx
    [str "n,,n=alice,r=CN", str "c=biws,r=CNSN,p=Aiw="] rfl

/-! ## Round one -/

/-- C9: round one on success.  In the initial state, for a client-first
message that parses and whose username the lookup resolves without error,
`Step` returns a nil error and the response
`r=` clientNonce serverNonce `,s=` base64(salt) `,i=` decimal(iterations),
where serverNonce is what the nonce generator returns (called after the
lookup); the conversation then stores clientNonce followed by serverNonce as
its nonce, the parsed c1b, and that response as s1. -/
theorem Step_first_success (P : Helpers) (sc : ServerConversation W) (c1 : GoString)
    (cx : Ctx W) (m : c1Msg)
    (hstate : sc.state = .serverFirst)
    (hparse : P.parseClientFirst c1 = .ok m)
    (hlookup : (sc.credentialCB m.username cx.world).1.2 = none) :
    (Step P sc c1 cx).err = none ∧
    (Step P sc c1 cx).response =
      str "r=" ++ m.nonce ++ (sc.nonceGen (sc.credentialCB m.username cx.world).2).1
        ++ str ",s=" ++ base64Encode (sc.credentialCB m.username cx.world).1.1.Salt
        ++ str ",i=" ++ fmtInt (sc.credentialCB m.username cx.world).1.1.Iters ∧
    (Step P sc c1 cx).sc.nonce =
      m.nonce ++ (sc.nonceGen (sc.credentialCB m.username cx.world).2).1 ∧
    (Step P sc c1 cx).sc.c1b = m.c1b ∧
    (Step P sc c1 cx).sc.s1 = (Step P sc c1 cx).response := by
  rw [Step_of_serverFirst P sc c1 cx hstate]
  simp [firstMsg, hparse, hlookup]

/-- Witness of C9 on the concrete deployment: round one for `alice`. -/
theorem Step_first_success_witness :
    (Step toyHelpers (toyFresh toyHashGen aliceCredential) (str "n,,n=alice,r=CN") toyCtx).err
      = none ∧
    (Step toyHelpers (toyFresh toyHashGen aliceCredential) (str "n,,n=alice,r=CN")
      toyCtx).response = str "r=CNSN,s=Uw==,i=4096" ∧
    (Step toyHelpers (toyFresh toyHashGen aliceCredential) (str "n,,n=alice,r=CN")
      toyCtx).sc.nonce = str "CNSN" ∧
    (Step toyHelpers (toyFresh toyHashGen aliceCredential) (str "n,,n=alice,r=CN")
      toyCtx).sc.c1b = str "n=alice,r=CN" ∧
    (Step toyHelpers (toyFresh toyHashGen aliceCredential) (str "n,,n=alice,r=CN")
      toyCtx).sc.s1 = str "r=CNSN,s=Uw==,i=4096" :=
  Step_first_success toyHelpers (toyFresh toyHashGen aliceCredential)
    (str "n,,n=alice,r=CN") toyCtx
    { gs2Header := str "n,,", username := str "alice", authID := [],
      nonce := str "CN", c1b := str "n=alice,r=CN" }
    rfl rfl rfl

/-- C10: round one on lookup failure.  In the initial state, for a client-first
message that parses and whose lookup returns an error, `Step` returns the empty
response together with that error; the stored nonce, c1b and s1 are unchanged,
and the only calls made are the parser and the lookup (the nonce generator is
not called, and the world is as the lookup left it). -/
theorem Step_first_lookup_failure (P : Helpers) (sc : ServerConversation W) (c1 : GoString)
    (cx : Ctx W) (m : c1Msg) (e : GoError)
    (hstate : sc.state = .serverFirst)
    (hparse : P.parseClientFirst c1 = .ok m)
    (hlookup : (sc.credentialCB m.username cx.world).1.2 = some e) :
    (Step P sc c1 cx).response = [] ∧
    (Step P sc c1 cx).err = some e ∧
    (Step P sc c1 cx).sc.nonce = sc.nonce ∧
    (Step P sc c1 cx).sc.c1b = sc.c1b ∧
    (Step P sc c1 cx).sc.s1 = sc.s1 ∧
    (Step P sc c1 cx).cx.calls =
      cx.calls ++ [Call.parseClientFirst c1, Call.credentialCB m.username] ∧
    (Step P sc c1 cx).cx.world = (sc.credentialCB m.username cx.world).2 := by
  rw [Step_of_serverFirst P sc c1 cx hstate]
  simp [firstMsg, hparse, hlookup]

/-- Witness of C10 on the concrete deployment: round one for the unknown user
`bob`. -/
theorem Step_first_lookup_failure_witness :
    (Step toyHelpers (toyFresh toyHashGen aliceCredential) (str "n,,n=bob,r=CN")
      toyCtx).response = [] ∧
    (Step toyHelpers (toyFresh toyHashGen aliceCredential) (str "n,,n=bob,r=CN") toyCtx).err
      = some ⟨str "unknown user"⟩ ∧
    (Step toyHelpers (toyFresh toyHashGen aliceCredential) (str "n,,n=bob,r=CN")
      toyCtx).sc.nonce = [] ∧
    (Step toyHelpers (toyFresh toyHashGen aliceCredential) (str "n,,n=bob,r=CN")
      toyCtx).sc.c1b = [] ∧
    (Step toyHelpers (toyFresh toyHashGen aliceCredential) (str "n,,n=bob,r=CN")
      toyCtx).sc.s1 = [] ∧
    (Step toyHelpers (toyFresh toyHashGen aliceCredential) (str "n,,n=bob,r=CN")
      toyCtx).cx.calls =
      [Call.parseClientFirst (str "n,,n=bob,r=CN"), Call.credentialCB (str "bob")] ∧
    (Step toyHelpers (toyFresh toyHashGen aliceCredential) (str "n,,n=bob,r=CN")
      toyCtx).cx.world = 1 :=
  Step_first_lookup_failure toyHelpers (toyFresh toyHashGen aliceCredential)
    (str "n,,n=bob,r=CN") toyCtx
    { gs2Header := str "n,,", username := str "bob", authID := [],
      nonce := str "CN", c1b := str "n=bob,r=CN" }
    ⟨str "unknown user"⟩ rfl rfl rfl

/-! ## Further auxiliary lemmas -/

theorem firstMsg_identity (P : Helpers) (sc : ServerConversation W) (c1 : GoString)
    (cx : Ctx W) (m : c1Msg) (hparse : P.parseClientFirst c1 = .ok m) :
    (firstMsg P sc c1 cx).sc.username = m.username ∧
    (firstMsg P sc c1 cx).sc.authID = m.authID := by
  cases hl : (sc.credentialCB m.username cx.world).1.2 with
  | none => simp [firstMsg, hparse, hl]
  | some e => simp [firstMsg, hparse, hl]

theorem firstMsg_of_err_none (P : Helpers) (sc : ServerConversation W) (c1 : GoString)
    (cx : Ctx W) (h : (firstMsg P sc c1 cx).err = none) :
    ∃ m : c1Msg, P.parseClientFirst c1 = .ok m ∧
      (sc.credentialCB m.username cx.world).1.2 = none := by
  cases hparse : P.parseClientFirst c1 with
  | error e => simp [firstMsg, hparse] at h
  | ok m =>
    cases hl : (sc.credentialCB m.username cx.world).1.2 with
    | none => exact ⟨m, rfl, hl⟩
    | some e => simp [firstMsg, hparse, hl] at h

theorem firstMsg_success (P : Helpers) (sc : ServerConversation W) (c1 : GoString)
    (cx : Ctx W) (m : c1Msg) (hparse : P.parseClientFirst c1 = .ok m)
    (hl : (sc.credentialCB m.username cx.world).1.2 = none) :
    (firstMsg P sc c1 cx).sc.c1b = m.c1b ∧
    (firstMsg P sc c1 cx).sc.s1 = (firstMsg P sc c1 cx).response ∧
    (firstMsg P sc c1 cx).sc.hashGen = sc.hashGen ∧
    (firstMsg P sc c1 cx).sc.state = sc.state := by
  simp [firstMsg, hparse, hl]

theorem finalMsg_response_of_err_none (P : Helpers) (sc : ServerConversation W)
    (c2 : GoString) (cx : Ctx W) (m : c2Msg) (hparse : P.parseClientFinal c2 = .ok m)
    (h : (finalMsg P sc c2 cx).err = none) :
    (finalMsg P sc c2 cx).response = str "v=" ++ base64Encode
      (computeHMAC sc.hashGen sc.credential.ServerKey (AuthMessage sc.c1b sc.s1 m.c2wop)) := by
  by_cases hcb : m.cbind = sc.gs2Header
  · by_cases hn : m.nonce = sc.nonce
    · by_cases hk : computeHash sc.hashGen (P.xorBytes m.proof
          (computeHMAC sc.hashGen sc.credential.StoredKey
            (sc.c1b ++ (str "," ++ (sc.s1 ++ (str "," ++ m.c2wop)))))) = sc.credential.StoredKey
      · simp [finalMsg, hparse, hcb, hn, hk, hmacEqual, AuthMessage]
      · simp [finalMsg, hparse, hcb, hn, hk, hmacEqual] at h
    · simp [finalMsg, hparse, hcb, hn] at h
  · simp [finalMsg, hparse, hcb] at h

/-! ## Accessors, transcript and frame -/

/-- C11: accessors.  On a fresh conversation `Username` and `AuthID` return the
empty string; after `Step` has processed a client-first message that parses,
they return the username and authID of the parsed message, whether or not the
credential lookup succeeds; and `Step` in round two leaves both unchanged. -/
theorem Username_AuthID_spec (P : Helpers) :
    (∀ (ng : W → GoString × W) (hg : HashGeneratorFcn)
        (cb : GoString → W → (StoredCredentials × Option GoError) × W),
        Username (freshConversation ng hg cb) = [] ∧
        AuthID (freshConversation ng hg cb) = []) ∧
    (∀ (sc : ServerConversation W) (c1 : GoString) (cx : Ctx W) (m : c1Msg),
        sc.state = .serverFirst → P.parseClientFirst c1 = .ok m →
        Username (Step P sc c1 cx).sc = m.username ∧
        AuthID (Step P sc c1 cx).sc = m.authID) ∧
    (∀ (sc : ServerConversation W) (c2 : GoString) (cx : Ctx W),
        sc.state = .serverFinal →
        Username (Step P sc c2 cx).sc = Username sc ∧
        AuthID (Step P sc c2 cx).sc = AuthID sc) := by
  refine ⟨fun _ _ _ => ⟨rfl, rfl⟩, ?_, ?_⟩
  · intro sc c1 cx m hstate hparse
    rw [Step_of_serverFirst P sc c1 cx hstate]
    exact firstMsg_identity P _ c1 cx m hparse
  · intro sc c2 cx hstate
    rw [Step_of_serverFinal P sc c2 cx hstate, finalMsg_state]
    exact ⟨rfl, rfl⟩

/-- Witness of C11 on the concrete deployment: round one for the unknown user
`bob` records `bob` although the lookup fails, and round two after `alice`
keeps `alice`. -/
theorem Username_AuthID_spec_witness :
    (Username (Step toyHelpers (toyFresh toyHashGen aliceCredential) (str "n,,n=bob,r=CN")
        toyCtx).sc = str "bob" ∧
     AuthID (Step toyHelpers (toyFresh toyHashGen aliceCredential) (str "n,,n=bob,r=CN")
        toyCtx).sc = []) ∧
    (Username (Step toyHelpers (toyAwaitingFinal toyHashGen aliceCredential)
        (str "c=biws,r=CNSN,p=Aiw=") toyCtx).sc = str "alice" ∧
     AuthID (Step toyHelpers (toyAwaitingFinal toyHashGen aliceCredential)
        (str "c=biws,r=CNSN,p=Aiw=") toyCtx).sc = []) :=
  ⟨(Username_AuthID_spec toyHelpers).2.1 (toyFresh toyHashGen aliceCredential)
      (str "n,,n=bob,r=CN") toyCtx
      { gs2Header := str "n,,", username := str "bob", authID := [],
        nonce := str "CN", c1b := str "n=bob,r=CN" } rfl rfl,
   (Username_AuthID_spec toyHelpers).2.2 (toyAwaitingFinal toyHashGen aliceCredential)
      (str "c=biws,r=CNSN,p=Aiw=") toyCtx rfl⟩

/-- C12: transcript byte-exactness across the two rounds.  If the first `Step`
succeeds on a client-first message with bare part c1b and returns s1, and the
second `Step` succeeds on a client-final message with proof-less part w, then
the second response is `v=` followed by the base64 of
`KeyedHash(ServerKey, c1b + "," + s1 + "," + w)`, the ServerKey being that of
the credential stored by round one. -/
theorem Step_transcript_exact (P : Helpers) (sc : ServerConversation W) (c1 c2 : GoString)
    (cx cx' : Ctx W) (m1 : c1Msg) (m2 : c2Msg)
    (hstate : sc.state = .serverFirst)
    (hparse1 : P.parseClientFirst c1 = .ok m1)
    (hok1 : (Step P sc c1 cx).err = none)
    (hparse2 : P.parseClientFinal c2 = .ok m2)
    (hok2 : (Step P (Step P sc c1 cx).sc c2 cx').err = none) :
    (Step P (Step P sc c1 cx).sc c2 cx').response =
      str "v=" ++ base64Encode (computeHMAC sc.hashGen (Step P sc c1 cx).sc.credential.ServerKey
        (AuthMessage m1.c1b (Step P sc c1 cx).response m2.c2wop)) := by
  have hstate1 := Step_state_of_serverFirst P sc c1 cx hstate
  rw [Step_of_serverFinal P _ c2 cx' hstate1] at hok2 ⊢
  have hresp := finalMsg_response_of_err_none P _ c2 cx' m2 hparse2 hok2
  rw [hresp]
  rw [Step_of_serverFirst P sc c1 cx hstate] at hok1 ⊢
  obtain ⟨m, hm, hl⟩ := firstMsg_of_err_none P _ c1 cx hok1
  have hmm : m = m1 := by
    rw [hparse1] at hm
    exact (Except.ok.inj hm).symm
  subst hmm
  obtain ⟨h1, h2, h3, _⟩ := firstMsg_success P { sc with state := .serverFinal } c1 cx m hm hl
  simp only [h1, h2, h3]

/-- Witness of C12 on the concrete deployment: both rounds for `alice`. -/
theorem Step_transcript_exact_witness :
    (Step toyHelpers (Step toyHelpers (toyFresh toyHashGen aliceCredential)
        (str "n,,n=alice,r=CN") toyCtx).sc (str "c=biws,r=CNSN,p=Ai0=")
        (Step toyHelpers (toyFresh toyHashGen aliceCredential)
          (str "n,,n=alice,r=CN") toyCtx).cx).response =
      str "v=" ++ base64Encode (toyKeyedHash [3, 4]
        (AuthMessage (str "n=alice,r=CN") (str "r=CNSN,s=Uw==,i=4096")
          (str "c=biws,r=CNSN"))) :=
  Step_transcript_exact toyHelpers (toyFresh toyHashGen aliceCredential)
    (str "n,,n=alice,r=CN") (str "c=biws,r=CNSN,p=Ai0=") toyCtx
    (Step toyHelpers (toyFresh toyHashGen aliceCredential) (str "n,,n=alice,r=CN") toyCtx).cx
    { gs2Header := str "n,,", username := str "alice", authID := [],
      nonce := str "CN", c1b := str "n=alice,r=CN" }
    { cbind := str "n,,", nonce := str "CNSN", proof := [2, 45], c2wop := str "c=biws,r=CNSN" }
    rfl rfl (by decide) rfl (by decide)

/-- C13: response vocabulary of round two.  In the awaiting-client-final
state, whenever `Step` returns a non-nil error the response is the empty
string (exactly when the message fails to parse) or one of the tokens
`e=channel-bindings-dont-match`, `e=other-error`, `e=invalid-proof`; whenever
it returns a nil error the response starts with `v=`. -/
theorem Step_final_vocabulary (P : Helpers) (sc : ServerConversation W) (c2 : GoString)
    (cx : Ctx W) (hstate : sc.state = .serverFinal) :
    ((Step P sc c2 cx).err ≠ none →
      (((Step P sc c2 cx).response = [] ↔ ∃ e, P.parseClientFinal c2 = .error e) ∧
       ((Step P sc c2 cx).response = [] ∨
        (Step P sc c2 cx).response = str "e=channel-bindings-dont-match" ∨
        (Step P sc c2 cx).response = str "e=other-error" ∨
        (Step P sc c2 cx).response = str "e=invalid-proof"))) ∧
    ((Step P sc c2 cx).err = none →
      ∃ rest : GoString, (Step P sc c2 cx).response = str "v=" ++ rest) := by
  have t1 : str "e=channel-bindings-dont-match" ≠ [] := by decide
  have t2 : str "e=other-error" ≠ [] := by decide
  have t3 : str "e=invalid-proof" ≠ [] := by decide
  rw [Step_of_serverFinal P sc c2 cx hstate]
  cases hparse : P.parseClientFinal c2 with
  | error e => simp [finalMsg, hparse]
  | ok m =>
    by_cases hcb : m.cbind = sc.gs2Header
    · by_cases hn : m.nonce = sc.nonce
      · by_cases hk : computeHash sc.hashGen (P.xorBytes m.proof
            (computeHMAC sc.hashGen sc.credential.StoredKey
              (sc.c1b ++ (str "," ++ (sc.s1 ++ (str "," ++ m.c2wop)))))) = sc.credential.StoredKey
        · simp [finalMsg, hparse, hcb, hn, hk, hmacEqual]
        · simp [finalMsg, hparse, hcb, hn, hk, hmacEqual, t3]
      · simp [finalMsg, hparse, hcb, hn, t2]
    · simp [finalMsg, hparse, hcb, t1]

/-- Witness of C13 on the concrete deployment, at an unparseable message. -/
theorem Step_final_vocabulary_witness :
    (Step toyHelpers (toyAwaitingFinal toyHashGen aliceCredential) (str "garbage")
      toyCtx).response = [] ↔
      ∃ e, toyHelpers.parseClientFinal (str "garbage") = .error e :=
  ((Step_final_vocabulary toyHelpers (toyAwaitingFinal toyHashGen aliceCredential)
    (str "garbage") toyCtx rfl).1 (by decide)).1

/-- C14: credentials and transcript are frozen after round one.  For every
message, `Step` on a conversation awaiting client-final returns the same
conversation with only the state replaced by `serverDone`: the credential,
gs2Header, username, authID, nonce, c1b, s1 and the three configured functions
are the same before and after, on success and on every failure. -/
theorem Step_final_frame (P : Helpers) (sc : ServerConversation W) (c2 : GoString)
    (cx : Ctx W) (hstate : sc.state = .serverFinal) :
    (Step P sc c2 cx).sc = { sc with state := .serverDone } := by
  rw [Step_of_serverFinal P sc c2 cx hstate, finalMsg_state]

/-- Witness of C14 on the concrete deployment, at a message with an invalid
proof. -/
theorem Step_final_frame_witness :
    (Step toyHelpers (toyAwaitingFinal toyHashGen aliceCredential)
        (str "c=biws,r=CNSN,p=Aiw=") toyCtx).sc =
      { toyAwaitingFinal toyHashGen aliceCredential with state := .serverDone } :=
  Step_final_frame toyHelpers (toyAwaitingFinal toyHashGen aliceCredential)
    (str "c=biws,r=CNSN,p=Aiw=") toyCtx rfl

/-! ## A proof of the wrong length -/

theorem Step_final_vocabulary_aux (P : Helpers) (sc : ServerConversation W) (c2 : GoString)
    (cx : Ctx W) (hstate : sc.state = .serverFinal) (h : (Step P sc c2 cx).err = none) :
    ∃ rest : GoString, (Step P sc c2 cx).response = str "v=" ++ rest := by
  rw [Step_of_serverFinal P sc c2 cx hstate] at h ⊢
  cases hparse : P.parseClientFinal c2 with
  | error e => simp [finalMsg, hparse] at h
  | ok m => exact ⟨_, finalMsg_response_of_err_none P _ c2 cx m hparse h⟩

/-- Round two makes no check of the length of the proof: for a parseable
message that passes the channel-binding and nonce gates, the outcome of `Step`
is decided by `Hash(xorBytes(proof, KeyedHash(StoredKey, AuthMessage)))` alone,
whatever the length of the proof is. -/
theorem Step_final_proof_any_length (P : Helpers) (sc : ServerConversation W) (c2 : GoString)
    (cx : Ctx W) (m : c2Msg)
    (hstate : sc.state = .serverFinal)
    (hparse : P.parseClientFinal c2 = .ok m)
    (hcbind : m.cbind = sc.gs2Header)
    (hnonce : m.nonce = sc.nonce) :
    (Step P sc c2 cx).response ≠ [] ∧
    (computeHash sc.hashGen (P.xorBytes m.proof
        (computeHMAC sc.hashGen sc.credential.StoredKey (AuthMessage sc.c1b sc.s1 m.c2wop)))
        ≠ sc.credential.StoredKey →
      (Step P sc c2 cx).response = str "e=invalid-proof" ∧ (Step P sc c2 cx).err ≠ none) ∧
    (computeHash sc.hashGen (P.xorBytes m.proof
        (computeHMAC sc.hashGen sc.credential.StoredKey (AuthMessage sc.c1b sc.s1 m.c2wop)))
        = sc.credential.StoredKey →
      (Step P sc c2 cx).err = none) := by
  have t3 : str "e=invalid-proof" ≠ [] := by decide
  have t4 : str "v=" ≠ [] := by decide
  rw [Step_of_serverFinal P sc c2 cx hstate]
  by_cases hk : computeHash sc.hashGen (P.xorBytes m.proof
      (computeHMAC sc.hashGen sc.credential.StoredKey
        (sc.c1b ++ (str "," ++ (sc.s1 ++ (str "," ++ m.c2wop)))))) = sc.credential.StoredKey
  · simp [finalMsg, hparse, hcbind, hnonce, hk, hmacEqual, AuthMessage, t4]
  · simp [finalMsg, hparse, hcbind, hnonce, hk, hmacEqual, AuthMessage, t3]

/-- C15: failures are to be values, never faults, and a proof of the wrong
length is to be a returned failure.  The code misses the length check: on the
concrete deployment the client-final message `c=biws,r=CNSN,p=AQID`, with the
three-byte proof `[1, 2, 3]` against the two-byte keyed hash `[3, 47]`, parses
and passes both gates, and `xorBytes` is then called on the three-byte proof
and the two-byte keyed hash: for every `xorBytes` that returns, `Step` accepts
exactly when it returns the client key `[1, 2]` and answers `e=invalid-proof`
otherwise.  No failure is returned before the call. -/
theorem Step_final_long_proof_unchecked (xor : GoString → GoString → GoString) :
    (toyAwaitingFinal toyHashGen aliceCredential).state = .serverFinal ∧
    (oddHelpers xor).parseClientFinal (str "c=biws,r=CNSN,p=AQID") = .ok
      { cbind := str "n,,", nonce := str "CNSN", proof := [1, 2, 3],
        c2wop := str "c=biws,r=CNSN" } ∧
    computeHMAC toyHashGen aliceCredential.StoredKey
      (AuthMessage (str "n=alice,r=CN") (str "r=CNSN,s=Uw==,i=4096")
        (str "c=biws,r=CNSN")) = [3, 47] ∧
    ((Step (oddHelpers xor) (toyAwaitingFinal toyHashGen aliceCredential)
        (str "c=biws,r=CNSN,p=AQID") toyCtx).err = none ↔
      90 :: xor [1, 2, 3] [3, 47] = [90, 1, 2]) ∧
    ((Step (oddHelpers xor) (toyAwaitingFinal toyHashGen aliceCredential)
        (str "c=biws,r=CNSN,p=AQID") toyCtx).response = str "e=invalid-proof" ↔
      90 :: xor [1, 2, 3] [3, 47] ≠ [90, 1, 2]) := by
  have h := Step_final_proof_any_length (oddHelpers xor)
    (toyAwaitingFinal toyHashGen aliceCredential) (str "c=biws,r=CNSN,p=AQID") toyCtx
    { cbind := str "n,,", nonce := str "CNSN", proof := [1, 2, 3],
      c2wop := str "c=biws,r=CNSN" }
    rfl rfl (by decide) (by decide)
  have hbad : 90 :: xor [1, 2, 3] [3, 47] ≠ [90, 1, 2] →
      (Step (oddHelpers xor) (toyAwaitingFinal toyHashGen aliceCredential)
        (str "c=biws,r=CNSN,p=AQID") toyCtx).response = str "e=invalid-proof" ∧
      (Step (oddHelpers xor) (toyAwaitingFinal toyHashGen aliceCredential)
        (str "c=biws,r=CNSN,p=AQID") toyCtx).err ≠ none := h.2.1
  have hgood : 90 :: xor [1, 2, 3] [3, 47] = [90, 1, 2] →
      (Step (oddHelpers xor) (toyAwaitingFinal toyHashGen aliceCredential)
        (str "c=biws,r=CNSN,p=AQID") toyCtx).err = none := h.2.2
  have hv : ∀ rest : GoString, str "v=" ++ rest ≠ str "e=invalid-proof" := by
    intro rest hrest
    rw [show str "v=" = [118, 61] from by decide,
      show str "e=invalid-proof" = 101 :: str "=invalid-proof" from by decide] at hrest
    have h0 := List.head_eq_of_cons_eq hrest
    exact absurd h0 (by decide)
  refine ⟨rfl, rfl, by decide, ⟨?_, hgood⟩, ⟨?_, fun hk => (hbad hk).1⟩⟩
  · intro hnone
    by_contra hk
    exact (hbad hk).2 hnone
  · intro hresp hk
    obtain ⟨rest, hrest⟩ := (Step_final_vocabulary_aux (oddHelpers xor)
      (toyAwaitingFinal toyHashGen aliceCredential) (str "c=biws,r=CNSN,p=AQID") toyCtx rfl
      (hgood hk))
    exact hv rest (hrest.symm.trans hresp)

/-! ## A failed round one, and the calls of a whole run -/

theorem firstMsg_failed (P : Helpers) (sc : ServerConversation W) (c1 : GoString) (cx : Ctx W)
    (hkey : sc.credential.StoredKey = [])
    (hfail : (∃ e, P.parseClientFirst c1 = .error e) ∨
      (∃ m e, P.parseClientFirst c1 = .ok m ∧
        (sc.credentialCB m.username cx.world).1.2 = some e ∧
        (sc.credentialCB m.username cx.world).1.1.StoredKey = [])) :
    (firstMsg P sc c1 cx).err ≠ none ∧
    (firstMsg P sc c1 cx).sc.credential.StoredKey = [] ∧
    (firstMsg P sc c1 cx).sc.hashGen = sc.hashGen := by
  rcases hfail with ⟨e, he⟩ | ⟨m, e, hm, hl, hk⟩
  · simp [firstMsg, he, hkey]
  · simp [firstMsg, hm, hl, hk]

theorem finalMsg_cx (P : Helpers) (sc : ServerConversation W) (c : GoString) (cx : Ctx W) :
    (finalMsg P sc c cx).cx = { cx with calls := cx.calls ++ [Call.parseClientFinal c] } := by
  unfold finalMsg
  cases P.parseClientFinal c with
  | error e => rfl
  | ok m =>
    simp only
    split_ifs <;> rfl

theorem runSteps_of_completed (P : Helpers) (msgs : List GoString) :
    ∀ (sc : ServerConversation W) (cx : Ctx W), sc.state = .serverDone →
      runSteps P sc cx msgs = (sc, cx) := by
  induction msgs with
  | nil => intro sc cx _; rfl
  | cons c rest ih =>
    intro sc cx h
    have hs : Step P sc c cx =
        { response := [], err := some ⟨str "Conversation already completed"⟩,
          sc := sc, cx := cx } := by
      simp [Step, h]
    simp only [runSteps, hs]
    exact ih sc cx h

theorem runSteps_of_serverFinal_calls (P : Helpers) (sc : ServerConversation W) (cx : Ctx W)
    (msgs : List GoString) (h : sc.state = .serverFinal) :
    ∃ tail : List Call, (∀ x ∈ tail, ∃ c2, x = Call.parseClientFinal c2) ∧ tail.length ≤ 1 ∧
      (runSteps P sc cx msgs).2.calls = cx.calls ++ tail := by
  cases msgs with
  | nil => exact ⟨[], by simp, by simp, by simp [runSteps]⟩
  | cons c2 rest =>
    refine ⟨[Call.parseClientFinal c2], ?_, by simp, ?_⟩
    · intro x hx
      exact ⟨c2, by simpa using hx⟩
    · have hdone := Step_state_of_serverFinal P sc c2 cx h
      simp only [runSteps]
      rw [runSteps_of_completed P rest _ _ hdone, Step_of_serverFinal P sc c2 cx h,
        finalMsg_cx]

theorem firstMsg_calls (P : Helpers) (sc : ServerConversation W) (c1 : GoString) (cx : Ctx W) :
    ((∃ e, P.parseClientFirst c1 = .error e) ∧
      (firstMsg P sc c1 cx).cx.calls = cx.calls ++ [Call.parseClientFirst c1]) ∨
    (∃ m, P.parseClientFirst c1 = .ok m ∧
      (((sc.credentialCB m.username cx.world).1.2 ≠ none ∧
        (firstMsg P sc c1 cx).cx.calls =
          cx.calls ++ [Call.parseClientFirst c1, Call.credentialCB m.username]) ∨
       ((sc.credentialCB m.username cx.world).1.2 = none ∧
        (firstMsg P sc c1 cx).cx.calls =
          cx.calls ++ [Call.parseClientFirst c1, Call.credentialCB m.username,
            Call.nonceGen]))) := by
  cases hparse : P.parseClientFirst c1 with
  | error e => simp [firstMsg, hparse]
  | ok m =>
    cases hl : (sc.credentialCB m.username cx.world).1.2 with
    | none => simp [firstMsg, hparse, hl]
    | some e => simp [firstMsg, hparse, hl]

/-- C17: a failed round one is never followed by a successful round two.  On
a fresh conversation, if the first `Step` fails because the client-first
message does not parse, or because the lookup returns an error together with
a credential whose StoredKey is empty, then the first `Step` returns a non-nil
error and so does `Step` on every second message, provided `Hash` never
returns the empty byte string. -/
theorem Step_after_failed_first (P : Helpers) (ng : W → GoString × W) (hg : HashGeneratorFcn)
    (cb : GoString → W → (StoredCredentials × Option GoError) × W)
    (c1 c2 : GoString) (cx cx' : Ctx W)
    (hhash : ∀ b : GoString, computeHash hg b ≠ [])
    (hfail : (∃ e, P.parseClientFirst c1 = .error e) ∨
      (∃ m e, P.parseClientFirst c1 = .ok m ∧ (cb m.username cx.world).1.2 = some e ∧
        (cb m.username cx.world).1.1.StoredKey = [])) :
    (Step P (freshConversation ng hg cb) c1 cx).err ≠ none ∧
    (Step P (Step P (freshConversation ng hg cb) c1 cx).sc c2 cx').err ≠ none := by
  have hstate1 := Step_state_of_serverFirst P (freshConversation ng hg cb) c1 cx rfl
  have hfirst := firstMsg_failed P
    { freshConversation ng hg cb with state := .serverFinal } c1 cx rfl hfail
  rw [← Step_of_serverFirst P (freshConversation ng hg cb) c1 cx rfl] at hfirst
  obtain ⟨herr, hkey, hgen⟩ := hfirst
  refine ⟨herr, ?_⟩
  rw [Step_of_serverFinal P _ c2 cx' hstate1]
  intro hnone
  obtain ⟨m, _, _, _, hk⟩ := (finalMsg_err_none_iff P _ c2 cx').mp hnone
  simp only [hkey, hgen] at hk
  exact hhash _ hk

/-- Witness of C17 on the concrete deployment: round one for the unknown user
`bob`, then the client-final message that `alice` would send. -/
theorem Step_after_failed_first_witness :
    (Step toyHelpers (freshConversation toyNonceGen toyHashGen (toyLookup aliceCredential))
      (str "n,,n=bob,r=CN") toyCtx).err ≠ none ∧
    (Step toyHelpers
      (Step toyHelpers (freshConversation toyNonceGen toyHashGen (toyLookup aliceCredential))
        (str "n,,n=bob,r=CN") toyCtx).sc
      (str "c=biws,r=CNSN,p=Ai0=") toyCtx).err ≠ none :=
  Step_after_failed_first toyHelpers toyNonceGen toyHashGen (toyLookup aliceCredential)
    (str "n,,n=bob,r=CN") (str "c=biws,r=CNSN,p=Ai0=") toyCtx toyCtx
    (fun _ => List.cons_ne_nil _ _)
    (Or.inr ⟨{ gs2Header := str "n,,", username := str "bob", authID := [],
               nonce := str "CN", c1b := str "n=bob,r=CN" },
             ⟨str "unknown user"⟩, rfl, rfl, rfl⟩)

/-- C18: the calls of a whole run.  On a conversation awaiting client-first,
no message means no call, and for messages `c1 :: rest` the calls added to the
log are those of the first `Step` followed by at most one call, to the
client-final parser: the first `Step` calls the client-first parser only when
`c1` does not parse; the parser and then the lookup, with the username parsed
from `c1`, when the lookup fails; and the parser, that lookup and then the
nonce generator when the lookup succeeds.  So the lookup and the nonce
generator are each called at most once, in the first `Step` only, and the
nonce generator only after a successful lookup. -/
theorem runSteps_calls (P : Helpers) (sc : ServerConversation W) (cx : Ctx W)
    (hstate : sc.state = .serverFirst) :
    (runSteps P sc cx []).2.calls = cx.calls ∧
    ∀ (c1 : GoString) (rest : List GoString), ∃ tail : List Call,
      (∀ x ∈ tail, ∃ c2, x = Call.parseClientFinal c2) ∧ tail.length ≤ 1 ∧
      (((∃ e, P.parseClientFirst c1 = .error e) ∧
          (runSteps P sc cx (c1 :: rest)).2.calls =
            cx.calls ++ [Call.parseClientFirst c1] ++ tail) ∨
       (∃ m, P.parseClientFirst c1 = .ok m ∧
          (((sc.credentialCB m.username cx.world).1.2 ≠ none ∧
            (runSteps P sc cx (c1 :: rest)).2.calls =
              cx.calls ++ [Call.parseClientFirst c1, Call.credentialCB m.username] ++ tail) ∨
           ((sc.credentialCB m.username cx.world).1.2 = none ∧
            (runSteps P sc cx (c1 :: rest)).2.calls =
              cx.calls ++ [Call.parseClientFirst c1, Call.credentialCB m.username,
                Call.nonceGen] ++ tail)))) := by
  refine ⟨rfl, ?_⟩
  intro c1 rest
  have hstate1 := Step_state_of_serverFirst P sc c1 cx hstate
  obtain ⟨tail, htail, hlen, hcalls⟩ :=
    runSteps_of_serverFinal_calls P (Step P sc c1 cx).sc (Step P sc c1 cx).cx rest hstate1
  refine ⟨tail, htail, hlen, ?_⟩
  simp only [runSteps, hcalls]
  rw [Step_of_serverFirst P sc c1 cx hstate]
  rcases firstMsg_calls P { sc with state := .serverFinal } c1 cx with
    ⟨he, h1⟩ | ⟨m, hm, ⟨hl, h2⟩ | ⟨hl, h3⟩⟩
  · exact Or.inl ⟨he, by rw [h1]⟩
  · exact Or.inr ⟨m, hm, Or.inl ⟨hl, by rw [h2]⟩⟩
  · exact Or.inr ⟨m, hm, Or.inr ⟨hl, by rw [h3]⟩⟩

/-- Witness of C18 on the concrete deployment: three messages to a fresh
conversation produce the log parser, lookup of `alice`, nonce generator,
client-final parser. -/
theorem runSteps_calls_witness :
    (runSteps toyHelpers (toyFresh toyHashGen aliceCredential) toyCtx []).2.calls = [] ∧
    (runSteps toyHelpers (toyFresh toyHashGen aliceCredential) toyCtx
      [str "n,,n=alice,r=CN", str "c=biws,r=CNSN,p=Ai0=", str "c=biws,r=CNSN,p=Ai0="]).2.calls =
      [Call.parseClientFirst (str "n,,n=alice,r=CN"), Call.credentialCB (str "alice"),
        Call.nonceGen, Call.parseClientFinal (str "c=biws,r=CNSN,p=Ai0=")] :=
  ⟨(runSteps_calls toyHelpers (toyFresh toyHashGen aliceCredential) toyCtx rfl).1,
   by decide⟩

end Scram
